import Mathlib

/-!
Shallow embedding of the git-bug cache/operations layer:
`cache/cache.go` (RepoCache), `operations/create.go`, `operations/add_comment.go`
and `commands/pull.go`, together with the collaborator data model (bug.Bug,
bug.Snapshot, BugExcerpt, Query) that those files use.

Go maps are embedded as association lists (the list order stands for Go's
unspecified map iteration order); Go channels/streams as lists; ambient
effects (current time, the acting user, file I/O outcomes, commit outcomes)
as explicit parameters; a Go runtime panic as the `GoResult.panicked`
constructor.
-/

namespace GitBug

/-- Result of running a piece of Go code that may panic (index out of range,
explicit `panic(...)`). -/
inductive GoResult (α : Type) where
  | ok (a : α)
  | panicked (msg : String)
deriving DecidableEq, Repr

/-- Go `error` values, abstracted to their message. -/
structure GoErr where
  msg : String
deriving DecidableEq, Repr

/-- Modelled from the spec: an author identity (bug.Person is not under src/;
the spec only requires an identity attached to operations and comments). -/
structure Person where
  name : String
  email : String
deriving DecidableEq, Repr

/-- git.Hash: a content-addressed file reference (util/git is not under src/). -/
abbrev Hash := String

/-- bug.Comment, as used by the two Apply functions in src/operations:
message text, author, attached file references, unix timestamp. -/
structure Comment where
  message : String
  author : Person
  files : List Hash
  unixTime : Int
deriving DecidableEq, Repr

/-- bug.Snapshot, as used by the two Apply functions in src/operations:
title, ordered comments, author and creation time. -/
structure Snapshot where
  title : String
  comments : List Comment
  author : Person
  createdAt : Int
deriving DecidableEq, Repr

/-- The Go zero value of Snapshot: the fold over an operation log starts
from it (the Create operation populates every field). -/
def Snapshot.empty : Snapshot :=
  { title := "", comments := [], author := { name := "", email := "" }, createdAt := 0 }

/-- The closed union of operation variants present under src/operations
(design notes §9: a closed tagged union with an exhaustive fold).
Common OpBase fields (author, unix timestamp) are carried by each variant. -/
inductive Operation where
  | create (author : Person) (unixTime : Int) (title : String) (message : String)
      (files : List Hash)
  | addComment (author : Person) (unixTime : Int) (message : String) (files : List Hash)
deriving DecidableEq, Repr

/-- CreateOperation.Apply and AddCommentOperation.Apply from src/operations,
merged into the exhaustive fold step.
Create overwrites title/author/createdAt and replaces the comment list with
the single initial comment (whose Files field is left at its zero value, as
in the source); AddComment appends one comment built from the operation. -/
def Operation.apply : Operation → Snapshot → Snapshot
  | .create author unixTime title message _files, snap =>
      { snap with
        title := title
        comments := [{ message := message, author := author, files := [], unixTime := unixTime }]
        author := author
        createdAt := unixTime }
  | .addComment author unixTime message files, snap =>
      { snap with
        comments := snap.comments ++ [{ message := message, author := author,
                                        files := files, unixTime := unixTime }] }

/-- Modelled from the spec: bug.Bug (not under src/) — identity, ordered
committed operations, ordered staged operations (§3, §4.1). The identity is
opaque and assigned by the first durable commit (empty until then). -/
structure Bug where
  id : String
  committed : List Operation
  staged : List Operation
deriving DecidableEq, Repr

/-- bug.NewBug(): a fresh aggregate with no identity and no operations. -/
def Bug.new : Bug := { id := "", committed := [], staged := [] }

/-- Bug.Append: stages an operation after all currently staged ones (§4.1);
no durability side effect, never fails. -/
def Bug.append (b : Bug) (op : Operation) : Bug :=
  { b with staged := b.staged ++ [op] }

/-- The full operation log of a Bug: committed then staged (§4.1 Compile
folds committed + staged in order). -/
def Bug.ops (b : Bug) : List Operation :=
  b.committed ++ b.staged

/-- Fold of an operation sequence into a Snapshot, left to right, starting
from the zero Snapshot (§4.1 Compile). -/
def compileOps (ops : List Operation) : Snapshot :=
  ops.foldl (fun snap op => op.apply snap) Snapshot.empty

/-- Bug.Compile: folds the full operation log (§4.1). -/
def Bug.compile (b : Bug) : Snapshot :=
  compileOps b.ops

/-- Modelled from the spec: Bug commit (§4.1) — persists staged operations as
new durable log entries and clears the staged list; the identity is assigned
by the first commit (newHash stands for the collaborator-assigned hash);
on failure (outcome `some e`) staged operations remain staged. -/
def Bug.commit (b : Bug) (newHash : String) (outcome : Option GoErr) :
    Except GoErr Bug :=
  match outcome with
  | some e => .error e
  | none =>
      .ok { id := if b.id = "" then newHash else b.id,
            committed := b.committed ++ b.staged,
            staged := [] }

/-- operations.NewCreateOp (src/operations/create.go): builds the Create
operation; `now` is the ambient clock captured by bug.NewOpBase. -/
def NewCreateOp (author : Person) (title message : String) (files : List Hash)
    (now : Int) : Operation :=
  .create author now title message files

/-- operations.NewAddCommentOp (src/operations/add_comment.go). -/
def NewAddCommentOp (author : Person) (message : String) (files : List Hash)
    (now : Int) : Operation :=
  .addComment author now message files

/-- operations.CreateWithFiles (src/operations/create.go): a fresh bug with
the Create operation staged. In the source this never fails (it returns a
nil error unconditionally). -/
def CreateWithFiles (author : Person) (title message : String) (files : List Hash)
    (now : Int) : Bug :=
  Bug.new.append (NewCreateOp author title message files now)

/-- The author/timestamp common fields of an operation (bug.OpBase). -/
def Operation.opAuthor : Operation → Person
  | .create author _ _ _ _ => author
  | .addComment author _ _ _ => author

/-- The unix timestamp of an operation (bug.OpBase). -/
def Operation.opUnixTime : Operation → Int
  | .create _ t _ _ _ => t
  | .addComment _ t _ _ => t

/-- Modelled from the spec: BugExcerpt (not under src/) — a compact projection
of a Snapshot plus the Bug's identity and edit/creation timestamps (§3). -/
structure BugExcerpt where
  id : String
  title : String
  author : Person
  createUnixTime : Int
  editUnixTime : Int
deriving DecidableEq, Repr

/-- Modelled from the spec: the last-edit time of a bug — the timestamp of the
last operation of its log (creation time when the log is empty). -/
def Bug.lastEditUnix (b : Bug) : Int :=
  match b.ops.getLast? with
  | some op => op.opUnixTime
  | none => 0

/-- Modelled from the spec: NewBugExcerpt(bug, snapshot) — a pure projection
of the Snapshot plus the Bug's identity and timestamps (§4.2). -/
def NewBugExcerpt (b : Bug) (snap : Snapshot) : BugExcerpt :=
  { id := b.id, title := snap.title, author := snap.author,
    createUnixTime := snap.createdAt, editUnixTime := b.lastEditUnix }

/-- Association-list embedding of a Go map: lookup by key. -/
def lookupK {β : Type} : List (String × β) → String → Option β
  | [], _ => none
  | (k', v) :: rest, k => if k' = k then some v else lookupK rest k

/-- Association-list embedding of a Go map: insert or replace by key. -/
def upsert {β : Type} : List (String × β) → String → β → List (String × β)
  | [], k, v => [(k, v)]
  | (k', v') :: rest, k, v =>
      if k' = k then (k, v) :: rest else (k', v') :: upsert rest k v

/-- The Excerpt index: Go's map from bug identity to BugExcerpt, embedded as
an association list whose order stands for the map's iteration order. -/
abbrev Excerpts := List (String × BugExcerpt)

/-- In-memory state of a RepoCache (cache/cache.go): the Excerpt index and the
map of bugs loaded in memory (a BugCache holds the wrapped Bug). -/
structure CacheState where
  excerpts : Excerpts
  bugs : List (String × Bug)
deriving DecidableEq, Repr

/-- bug.ReadLocalBug via the collaborator store, modelled as a search of the
durable logs by identity; a missing identity is the store's not-found error. -/
def readLocalBug (store : List Bug) (id : String) : Except GoErr Bug :=
  match store.find? (fun b => b.id = id) with
  | some b => .ok b
  | none => .error { msg := "bug not found" }

/-- RepoCache.ResolveBug: the cached handle if already loaded, otherwise read
the durable log, wrap and memoize it. -/
def resolveBug (store : List Bug) (c : CacheState) (id : String) :
    Except GoErr (Bug × CacheState) :=
  match lookupK c.bugs id with
  | some cached => .ok (cached, c)
  | none =>
      match readLocalBug store id with
      | .error e => .error e
      | .ok b => .ok (b, { c with bugs := upsert c.bugs id b })

/-- strings.HasPrefix, embedded over the character lists of the strings. -/
def hasPrefixS (s p : String) : Bool := p.data.isPrefixOf s.data

/-- RepoCache.ResolveBugPrefix: collects the identities of the Excerpt index
that start with the prefix; more than one match is the ambiguity error that
joins every match; otherwise the source indexes `matching[0]`, which on an
empty match list is a Go index-out-of-range panic. -/
def resolveBugPrefix (store : List Bug) (c : CacheState) (pfx : String) :
    GoResult (Except GoErr (Bug × CacheState)) :=
  let matching := (c.excerpts.map Prod.fst).filter (fun id => hasPrefixS id pfx)
  if matching.length > 1 then
    .ok (.error { msg := "Multiple matching bug found:\n" ++ String.intercalate "\n" matching })
  else
    match matching with
    | [] => .panicked "runtime error: index out of range"
    | id :: _ => .ok (resolveBug store c id)

/-- RepoCache.buildAllExcerpt: enumerates every durable Bug log of the
collaborator store, compiles each Snapshot and derives its Excerpt, building
a fresh index (the channel from bug.ReadAllLocalBugs is embedded as the list
of the store's bugs in enumeration order). -/
def buildAllExcerpt (store : List Bug) : Excerpts :=
  store.foldl (fun m b => upsert m b.id (NewBugExcerpt b b.compile)) []

/-- Result of opening a RepoCache: the cache, the returned error if any, the
full-index persist events issued, and whether the fallback rebuild ran
(observable in the source by its progress output). -/
structure OpenResult where
  cache : CacheState
  err : Option GoErr
  persisted : List Excerpts
  rebuilt : Bool
deriving DecidableEq, Repr

/-- NewRepoCache (cache/cache.go): acquire the lock, then try to load the
persisted Excerpt index; on any load failure fall back to rebuilding the
whole index from the durable logs and persist it. Explicit parameters stand
for the lock outcome, the decode outcome of the persisted index, and the
outcome of the final index write. -/
def newRepoCache (store : List Bug) (lockFail : Option GoErr)
    (loadRes : Except GoErr Excerpts) (writeFail : Option GoErr) : OpenResult :=
  match lockFail with
  | some e => { cache := { excerpts := [], bugs := [] }, err := some e,
                persisted := [], rebuilt := false }
  | none =>
      match loadRes with
      | .ok ex => { cache := { excerpts := ex, bugs := [] }, err := none,
                    persisted := [], rebuilt := false }
      | .error _ =>
          let ex := buildAllExcerpt store
          match writeFail with
          | some e => { cache := { excerpts := ex, bugs := [] }, err := some e,
                        persisted := [], rebuilt := true }
          | none => { cache := { excerpts := ex, bugs := [] }, err := none,
                      persisted := [ex], rebuilt := true }

/-- Outcome of a cache mutation: the returned value or error, the new cache
state, and the full-index persist events issued by writeExcerpts. -/
structure MutResult (α : Type) where
  ret : Except GoErr α
  cache : CacheState
  persisted : List Excerpts
deriving Repr

/-- RepoCache.bugUpdated: regenerate the Excerpt of one loaded bug from its
current Snapshot, then rewrite the full persisted index; a missing identity
in the loaded-bug map is an explicit panic in the source. -/
def bugUpdated (c : CacheState) (id : String) (writeFail : Option GoErr) :
    GoResult (MutResult Unit) :=
  match lookupK c.bugs id with
  | none => .panicked "missing bug in the cache"
  | some b =>
      let c' := { c with excerpts := upsert c.excerpts id (NewBugExcerpt b b.compile) }
      match writeFail with
      | some e => .ok { ret := .error e, cache := c', persisted := [] }
      | none => .ok { ret := .ok (), cache := c', persisted := [c'.excerpts] }

/-- Ambient outcomes consumed by RepoCache.NewBugWithFiles: the acting-user
resolution (bug.GetUser), the hash assigned by the commit, the commit
outcome, and the outcome of the index write. -/
structure NewBugEnv where
  userRes : Except GoErr Person
  commitHash : String
  commitFail : Option GoErr
  writeFail : Option GoErr

/-- RepoCache.NewBugWithFiles: resolve the author, build the bug via the
creation factory, commit it, memoize it, then regenerate its Excerpt and
rewrite the index through bugUpdated. -/
def newBugWithFiles (c : CacheState) (env : NewBugEnv) (title message : String)
    (files : List Hash) (now : Int) : GoResult (MutResult Bug) :=
  match env.userRes with
  | .error e => .ok { ret := .error e, cache := c, persisted := [] }
  | .ok author =>
      let b := CreateWithFiles author title message files now
      match b.commit env.commitHash env.commitFail with
      | .error e => .ok { ret := .error e, cache := c, persisted := [] }
      | .ok b' =>
          let c1 := { c with bugs := upsert c.bugs b'.id b' }
          match bugUpdated c1 b'.id env.writeFail with
          | .panicked m => .panicked m
          | .ok r =>
              match r.ret with
              | .error e =>
                  .ok { ret := .error e, cache := r.cache, persisted := r.persisted }
              | .ok _ =>
                  .ok { ret := .ok b', cache := r.cache, persisted := r.persisted }

/-- Modelled from the spec: the classification of one merged issue (§4.5).
The source compares the result's status against the new/updated message
constants of the collaborator store. -/
inductive MergeStatus where
  | new
  | updated
  | nothing
  | invalid
deriving DecidableEq, Repr

/-- Modelled from the spec: one element of the collaborator store's merge
result stream (bug.MergeResult is not under src/): the issue identity, its
classification, a per-issue error when the underlying read/merge failed, and
the merged bug for New/Updated results. -/
structure MergeResult where
  id : String
  status : MergeStatus
  err : Option GoErr
  bug : Bug
deriving DecidableEq, Repr

/-- Observable events of RepoCache.MergeAll, in order: results sent on the
output channel, full-index persist events, and a process-aborting panic. -/
inductive MergeEvent where
  | yield (r : MergeResult)
  | persist (ex : Excerpts)
  | panicEv (msg : String)
deriving DecidableEq, Repr

/-- The per-result loop of RepoCache.MergeAll: a result carrying a non-nil
error is skipped; otherwise a New or Updated result first refreshes that
bug's Excerpt in memory, and the result is sent on the output channel.
Returns the final in-memory index and the ordered yield events. -/
def mergeAllLoop (ex : Excerpts) : List MergeResult → Excerpts × List MergeEvent
  | [] => (ex, [])
  | r :: rest =>
      if r.err.isSome then mergeAllLoop ex rest
      else
        let ex' :=
          match r.status with
          | .new => upsert ex r.id (NewBugExcerpt r.bug r.bug.compile)
          | .updated => upsert ex r.id (NewBugExcerpt r.bug r.bug.compile)
          | _ => ex
        let rec' := mergeAllLoop ex' rest
        (rec'.1, .yield r :: rec'.2)

/-- RepoCache.MergeAll: drains the collaborator store's result stream
(embedded as the list of its results in enumeration order) through the
per-result loop, then writes the full Excerpt index exactly once; a failure
of that single final write is an explicit panic in the source. -/
def mergeAll (ex : Excerpts) (results : List MergeResult)
    (writeFail : Option GoErr) : List MergeEvent :=
  let loopOut := mergeAllLoop ex results
  loopOut.2 ++ [match writeFail with
                | some e => .panicEv e.msg
                | none => .persist loopOut.1]

/-- Query ordering keys (modelled from the spec: exactly the three documented
keys, as Go integer constants — the Go type does not prevent other values). -/
def OrderById : Nat := 0

/-- Ordering key: by creation time. -/
def OrderByCreation : Nat := 1

/-- Ordering key: by last-edit time. -/
def OrderByEdit : Nat := 2

/-- Query direction constant: ascending. -/
def OrderAscending : Nat := 0

/-- Query direction constant: descending. -/
def OrderDescending : Nat := 1

/-- Modelled from the spec: a Query — a predicate over Excerpt fields plus an
ordering key and a direction (§3; the Query type is not under src/). -/
structure Query where
  Match : BugExcerpt → Bool
  OrderBy : Nat
  OrderDirection : Nat

/-- Less of the BugsById sorter (modelled from the spec: identity,
lexicographic). -/
def bugsByIdLess (a b : BugExcerpt) : Bool := a.id < b.id

/-- Less of the BugsByCreationTime sorter (modelled from the spec: creation
time). -/
def bugsByCreationLess (a b : BugExcerpt) : Bool :=
  a.createUnixTime < b.createUnixTime

/-- Less of the BugsByEditTime sorter (modelled from the spec: last-edit
time). -/
def bugsByEditLess (a b : BugExcerpt) : Bool :=
  a.editUnixTime < b.editUnixTime

/-- The sorter selected by the switch in QueryBugs; an unrecognized key falls
to the default branch, which panics in the source (hence `none` here). -/
def lessFor (ob : Nat) : Option (BugExcerpt → BugExcerpt → Bool) :=
  if ob = OrderById then some bugsByIdLess
  else if ob = OrderByCreation then some bugsByCreationLess
  else if ob = OrderByEdit then some bugsByEditLess
  else none

/-!
Embedding of Go's `sort.Sort` (the standard-library algorithm the source
hands its sorters to: unstable introsort — quicksort with a median-of-three
pivot, heapsort beyond the depth bound, and a shell pass plus insertion sort
on small ranges). `data.Less(i, j)` becomes `lessAt less arr i j`,
`data.Swap(i, j)` becomes `swapA arr i j`; loops carry explicit fuel that is
always at least the number of iterations the Go loops perform.
-/

/-- data.Less(i, j) on an array briefly viewed through the sort.Interface. -/
def lessAt {α : Type} (less : α → α → Bool) (arr : Array α) (i j : Nat) : Bool :=
  match arr[i]?, arr[j]? with
  | some x, some y => less x y
  | _, _ => false

/-- data.Swap(i, j); out-of-range indices leave the array unchanged (the Go
algorithm only ever swaps in range). -/
def swapA {α : Type} (arr : Array α) (i j : Nat) : Array α :=
  if h : i < arr.size then
    if h' : j < arr.size then arr.swap ⟨i, h⟩ ⟨j, h'⟩ else arr
  else arr

/-- Inner loop of insertionSort: move arr[j] left while it is strictly less
than its left neighbour and j is still right of lo. -/
def insInner {α : Type} (less : α → α → Bool) (lo : Nat) : Nat → Array α → Array α
  | 0, arr => arr
  | j+1, arr =>
      if j+1 > lo && lessAt less arr (j+1) j then
        insInner less lo j (swapA arr (j+1) j)
      else arr

/-- Outer loop of insertionSort over i = lo+1 .. hi-1. -/
def insLoop {α : Type} (less : α → α → Bool) (lo hi : Nat) :
    Nat → Nat → Array α → Array α
  | 0, _, arr => arr
  | fuel+1, i, arr =>
      if i < hi then insLoop less lo hi fuel (i+1) (insInner less lo i arr) else arr

/-- insertionSort(data, a, b) of Go's sort package. -/
def insertionSortGo {α : Type} (less : α → α → Bool) (arr : Array α)
    (lo hi : Nat) : Array α :=
  insLoop less lo hi (hi+1) (lo+1) arr

/-- siftDown(data, lo, hi, first) of Go's sort package (root named
explicitly; the fuel exceeds the tree height). -/
def siftDownGo {α : Type} (less : α → α → Bool) (hi first : Nat) :
    Nat → Nat → Array α → Array α
  | 0, _, arr => arr
  | fuel+1, root, arr =>
      let child := 2*root + 1
      if child ≥ hi then arr
      else
        let child :=
          if child + 1 < hi && lessAt less arr (first+child) (first+child+1) then
            child + 1
          else child
        if !(lessAt less arr (first+root) (first+child)) then arr
        else siftDownGo less hi first fuel child (swapA arr (first+root) (first+child))

/-- Heap-building loop of heapSort: siftDown at roots i, i-1, …, 0. -/
def heapBuild {α : Type} (less : α → α → Bool) (hi first : Nat) :
    Nat → Array α → Array α
  | 0, arr => siftDownGo less hi first (hi+1) 0 arr
  | i+1, arr => heapBuild less hi first i (siftDownGo less hi first (hi+1) (i+1) arr)

/-- Pop loop of heapSort: for i = n-1 down to 0, swap the maximum to the end
and restore the heap on the shrunken range. -/
def heapPop {α : Type} (less : α → α → Bool) (first : Nat) :
    Nat → Array α → Array α
  | 0, arr => arr
  | i+1, arr =>
      heapPop less first i (siftDownGo less i first (i+1) 0 (swapA arr first (first + i)))

/-- heapSort(data, a, b) of Go's sort package. -/
def heapSortGo {α : Type} (less : α → α → Bool) (arr : Array α) (lo hi : Nat) :
    Array α :=
  let first := lo
  let n := hi - lo
  heapPop less first n (heapBuild less n first ((n-1)/2) arr)

/-- medianOfThree(data, m1, m0, m2) of Go's sort package. -/
def medianOfThreeGo {α : Type} (less : α → α → Bool) (m1 m0 m2 : Nat)
    (arr : Array α) : Array α :=
  let arr := if lessAt less arr m1 m0 then swapA arr m1 m0 else arr
  if lessAt less arr m2 m1 then
    let arr := swapA arr m2 m1
    if lessAt less arr m1 m0 then swapA arr m1 m0 else arr
  else arr

/-- Scan `for ; i < c && data.Less(i, pivot); i++` of doPivot. -/
def scanLtUp {α : Type} (less : α → α → Bool) (arr : Array α) (pivot c : Nat) :
    Nat → Nat → Nat
  | 0, i => i
  | fuel+1, i =>
      if i < c && lessAt less arr i pivot then scanLtUp less arr pivot c fuel (i+1)
      else i

/-- Scan `for ; b < c && !data.Less(pivot, b); b++` of doPivot. -/
def scanLeUp {α : Type} (less : α → α → Bool) (arr : Array α) (pivot c : Nat) :
    Nat → Nat → Nat
  | 0, b => b
  | fuel+1, b =>
      if b < c && !(lessAt less arr pivot b) then scanLeUp less arr pivot c fuel (b+1)
      else b

/-- Scan `for ; b < c && data.Less(pivot, c-1); c--` of doPivot. -/
def scanGtDown {α : Type} (less : α → α → Bool) (arr : Array α) (pivot b : Nat) :
    Nat → Nat → Nat
  | 0, c => c
  | fuel+1, c =>
      if b < c && lessAt less arr pivot (c-1) then scanGtDown less arr pivot b fuel (c-1)
      else c

/-- Scan `for ; a < b && !data.Less(b-1, pivot); b--` of doPivot's
duplicate-protection loop. -/
def scanEqDown {α : Type} (less : α → α → Bool) (arr : Array α) (pivot aIdx : Nat) :
    Nat → Nat → Nat
  | 0, b => b
  | fuel+1, b =>
      if aIdx < b && !(lessAt less arr (b-1) pivot) then
        scanEqDown less arr pivot aIdx fuel (b-1)
      else b

/-- Main partition loop of doPivot: advance b over elements ≤ pivot, retreat
c over elements > pivot, swap the out-of-place pair, repeat. -/
def partitionLoop {α : Type} (less : α → α → Bool) (hi pivot : Nat) :
    Nat → Nat → Nat → Array α → Array α × Nat × Nat
  | 0, b, c, arr => (arr, b, c)
  | fuel+1, b, c, arr =>
      let b := scanLeUp less arr pivot c (hi+1) b
      let c := scanGtDown less arr pivot b (hi+1) c
      if b ≥ c then (arr, b, c)
      else partitionLoop less hi pivot fuel (b+1) (c-1) (swapA arr b (c-1))

/-- Duplicate-protection loop of doPivot: move pivot-equal elements left of b
out to the middle block. -/
def protectLoop {α : Type} (less : α → α → Bool) (hi pivot : Nat) :
    Nat → Nat → Nat → Array α → Array α × Nat × Nat
  | 0, aIdx, b, arr => (arr, aIdx, b)
  | fuel+1, aIdx, b, arr =>
      let b := scanEqDown less arr pivot aIdx (hi+1) b
      let aIdx := scanLtUp less arr pivot b (hi+1) aIdx
      if aIdx ≥ b then (arr, aIdx, b)
      else protectLoop less hi pivot fuel (aIdx+1) (b-1) (swapA arr aIdx (b-1))

/-- Pivot-selection phase of doPivot: Tukey ninther above 40 elements, then
medianOfThree(lo, m, hi-1), leaving the pivot at lo. -/
def pivotPrep {α : Type} (less : α → α → Bool) (arr : Array α) (lo hi m : Nat) :
    Array α :=
  let arr :=
    if hi - lo > 40 then
      let s := (hi - lo) / 8
      let arr := medianOfThreeGo less lo (lo+s) (lo+2*s) arr
      let arr := medianOfThreeGo less m (m-s) (m+s) arr
      medianOfThreeGo less (hi-1) (hi-1-s) (hi-1-2*s) arr
    else arr
  medianOfThreeGo less lo m (hi-1) arr

/-- Probes 2 and 3 of doPivot's duplicate test (`data[b-1] = pivot` and
`data[m] = pivot`), applied after probe 1 settled the array and d1; the
pivot sits at lo. -/
def dupsStep23 {α : Type} (less : α → α → Bool) (arr1 : Array α)
    (lo m b d1 : Nat) : Array α × Nat × Nat :=
  if !(lessAt less arr1 (b-1) lo) then
    if !(lessAt less arr1 m lo) then (swapA arr1 m (b-1-1), b-1-1, d1+1+1)
    else (arr1, b-1, d1+1)
  else
    if !(lessAt less arr1 m lo) then (swapA arr1 m (b-1), b-1, d1+1)
    else (arr1, b, d1)

/-- Repackaging of the duplicate test's outcome: protect holds when at least
two probes were pivot-equal. -/
def mkDups {α : Type} (t : Array α × Nat × Nat) (c : Nat) :
    Array α × Nat × Nat × Bool :=
  (t.1, t.2.1, c, decide (t.2.2 > 1))

/-- Duplicate-testing phase of doPivot (the body of its
`if !protect && hi-c < (hi-lo)/4` branch): probe three points for equality
with the pivot at lo, adjusting b and c; returns the new protect flag
(whether at least two probes were pivot-equal). -/
def dupsStep {α : Type} (less : α → α → Bool) (arr : Array α)
    (lo hi m b c : Nat) : Array α × Nat × Nat × Bool :=
  if !(lessAt less arr lo (hi-1)) then
    mkDups (dupsStep23 less (swapA arr c (hi-1)) lo m b 1) (c+1)
  else
    mkDups (dupsStep23 less arr lo m b 0) c

/-- The `protect` decision of doPivot after the main partition: run the
duplicate probes when the right block is suspiciously small, otherwise keep
protect = (hi-c < 5). -/
def pivotStep {α : Type} (less : α → α → Bool) (lo hi m : Nat)
    (part : Array α × Nat × Nat) : Array α × Nat × Nat × Bool :=
  if !(hi - part.2.2 < 5) && hi - part.2.2 < (hi - lo)/4 then
    dupsStep less part.1 lo hi m part.2.1 part.2.2
  else (part.1, part.2.1, part.2.2, decide (hi - part.2.2 < 5))

/-- The conditional duplicate-protection loop of doPivot; returns the array
and the final b. -/
def pivotProtect {α : Type} (less : α → α → Bool) (lo hi aIdx : Nat)
    (step : Array α × Nat × Nat × Bool) : Array α × Nat :=
  if step.2.2.2 then
    let pl := protectLoop less hi lo (hi+1) aIdx step.2.1 step.1
    (pl.1, pl.2.2)
  else (step.1, step.2.1)

/-- doPivot(data, lo, hi) of Go's sort package: median-of-three (Tukey
ninther above 40 elements) pivot selection at lo, partition with duplicate
protection; returns (midlo, midhi). -/
def doPivotGo {α : Type} (less : α → α → Bool) (arr : Array α) (lo hi : Nat) :
    Array α × Nat × Nat :=
  let m := (lo + hi) / 2
  let arr := pivotPrep less arr lo hi m
  let pivot := lo
  let aIdx := scanLtUp less arr pivot (hi-1) (hi+1) (lo+1)
  let part := partitionLoop less hi pivot (hi+1) aIdx (hi-1) arr
  let step := pivotStep less pivot hi m part
  let ap := pivotProtect less pivot hi aIdx step
  (swapA ap.1 pivot (ap.2 - 1), ap.2 - 1, step.2.2.1)

/-- Shell pass with gap 6 over [lo+6, hi) that precedes insertion sort on
small ranges in Go's quickSort. -/
def shellPass {α : Type} (less : α → α → Bool) (hi : Nat) :
    Nat → Nat → Array α → Array α
  | 0, _, arr => arr
  | fuel+1, i, arr =>
      if i < hi then
        shellPass less hi fuel (i+1)
          (if lessAt less arr i (i-6) then swapA arr i (i-6) else arr)
      else arr

/-- quickSort(data, a, b, maxDepth) of Go's sort package, with the
iterate-on-the-larger-side loop unrolled into recursion; ranges larger than
12 are partitioned (or heap-sorted once the depth budget is spent), small
ranges get the gap-6 shell pass followed by insertion sort. -/
def quickSortGo {α : Type} (less : α → α → Bool) :
    Nat → Array α → Nat → Nat → Nat → Array α
  | 0, arr, _, _, _ => arr
  | fuel+1, arr, lo, hi, maxD =>
      if hi - lo > 12 then
        if maxD = 0 then heapSortGo less arr lo hi
        else
          let p := doPivotGo less arr lo hi
          let arr := p.1
          let mlo := p.2.1
          let mhi := p.2.2
          if mlo - lo < hi - mhi then
            let arr := quickSortGo less fuel arr lo mlo (maxD - 1)
            quickSortGo less fuel arr mhi hi (maxD - 1)
          else
            let arr := quickSortGo less fuel arr mhi hi (maxD - 1)
            quickSortGo less fuel arr lo mlo (maxD - 1)
      else
        if hi - lo > 1 then
          insertionSortGo less (shellPass less hi (hi+1) (lo+6) arr) lo hi
        else arr

/-- The bit-length loop of Go's maxDepth. -/
def depthBits : Nat → Nat
  | 0 => 0
  | n+1 => depthBits ((n+1)/2) + 1

/-- maxDepth(n) of Go's sort package: 2 * bit length of n. -/
def maxDepthGo (n : Nat) : Nat := 2 * depthBits n

/-- sort.Sort(data): quickSort over the whole range. -/
def sortGo {α : Type} (less : α → α → Bool) (arr : Array α) : Array α :=
  quickSortGo less (arr.size + 1) arr 0 arr.size (maxDepthGo arr.size)

/-- RepoCache.AllBugsIds: the identities of every known excerpt, in map
iteration order. -/
def allBugsIds (c : CacheState) : List String :=
  c.excerpts.map (fun p => p.2.id)

/-- RepoCache.QueryBugs: a nil query returns all identities; otherwise the
excerpts are filtered by the query's Match, sorted via Go's sort.Sort with
the sorter picked by the ordering key (wrapped by sort.Reverse — the flipped
comparator — when descending), and mapped to identities. The default branch
of the sorter switch panics in the source. -/
def queryBugs (c : CacheState) (q : Option Query) : GoResult (List String) :=
  match q with
  | none => .ok (allBugsIds c)
  | some q =>
      let filtered := (c.excerpts.map Prod.snd).filter q.Match
      match lessFor q.OrderBy with
      | none => .panicked "missing sort type"
      | some less =>
          let less :=
            if q.OrderDirection = OrderDescending then fun x y => less y x else less
          .ok ((sortGo less filtered.toArray).toList.map (fun e => e.id))

/-! Permutation facts: every array operation of the sort embedding only ever
swaps two elements, so the sorted array is a permutation of its input. -/

theorem setSelfEq {α : Type} (l : List α) (n : Nat) (h : n < l.length) :
    l.set n l[n] = l := by
  induction l generalizing n with
  | nil => simp at h
  | cons a t ih =>
    match n with
    | 0 => simp
    | n+1 => simp [List.set, ih n (by simpa using h)]

theorem headSwapPerm {α : Type} (t : List α) (m : Nat) (x : α) (hm : m < t.length) :
    (t[m] :: t.set m x).Perm (x :: t) := by
  induction t generalizing m with
  | nil => simp at hm
  | cons a t ih =>
    match m with
    | 0 => simpa using List.Perm.swap x a t
    | m+1 =>
      have hm' : m < t.length := by simpa using hm
      have h1 : (t[m] :: a :: t.set m x).Perm (a :: t[m] :: t.set m x) :=
        List.Perm.swap a t[m] _
      have h2 : (a :: t[m] :: t.set m x).Perm (a :: (x :: t)) :=
        List.Perm.cons a (ih m hm')
      have h3 : (a :: x :: t).Perm (x :: a :: t) := List.Perm.swap x a t
      simpa using (h1.trans h2).trans h3

theorem setSetPerm {α : Type} (l : List α) (i j : Nat) (hi : i < l.length)
    (hj : j < l.length) : ((l.set i l[j]).set j l[i]).Perm l := by
  induction l generalizing i j with
  | nil => simp at hi
  | cons a t ih =>
    match i, j with
    | 0, 0 => simp
    | 0, m+1 =>
      have hm : m < t.length := by simpa using hj
      simpa using headSwapPerm t m a hm
    | n+1, 0 =>
      have hn : n < t.length := by simpa using hi
      simpa using headSwapPerm t n a hn
    | n+1, m+1 =>
      have hn : n < t.length := by simpa using hi
      have hm : m < t.length := by simpa using hj
      simpa using List.Perm.cons a (ih n m hn hm)

theorem swapA_perm {α : Type} (arr : Array α) (i j : Nat) :
    (swapA arr i j).toList.Perm arr.toList := by
  unfold swapA
  split
  · split
    · rename_i h h'
      rw [Array.toList_swap]
      simp only [Array.get_eq_getElem, Array.getElem_eq_getElem_toList]
      exact setSetPerm arr.toList i j (by simpa using h) (by simpa using h')
    · exact List.Perm.refl _
  · exact List.Perm.refl _

theorem insInner_perm {α : Type} (less : α → α → Bool) (lo : Nat) :
    ∀ (j : Nat) (arr : Array α), (insInner less lo j arr).toList.Perm arr.toList
  | 0, arr => List.Perm.refl _
  | j+1, arr => by
      unfold insInner
      split
      · exact (insInner_perm less lo j _).trans (swapA_perm arr (j+1) j)
      · exact List.Perm.refl _

theorem insLoop_perm {α : Type} (less : α → α → Bool) (lo hi : Nat) :
    ∀ (fuel i : Nat) (arr : Array α), (insLoop less lo hi fuel i arr).toList.Perm arr.toList
  | 0, _, arr => List.Perm.refl _
  | fuel+1, i, arr => by
      unfold insLoop
      split
      · exact (insLoop_perm less lo hi fuel (i+1) _).trans (insInner_perm less lo i arr)
      · exact List.Perm.refl _

theorem insertionSortGo_perm {α : Type} (less : α → α → Bool) (arr : Array α)
    (lo hi : Nat) : (insertionSortGo less arr lo hi).toList.Perm arr.toList :=
  insLoop_perm less lo hi (hi+1) (lo+1) arr

theorem siftDownGo_perm {α : Type} (less : α → α → Bool) (hi first : Nat) :
    ∀ (fuel root : Nat) (arr : Array α),
      (siftDownGo less hi first fuel root arr).toList.Perm arr.toList
  | 0, _, arr => List.Perm.refl _
  | fuel+1, root, arr => by
      unfold siftDownGo
      dsimp only
      split_ifs <;>
        first
        | exact List.Perm.refl _
        | exact (siftDownGo_perm less hi first fuel _ _).trans (swapA_perm arr _ _)

theorem heapBuild_perm {α : Type} (less : α → α → Bool) (hi first : Nat) :
    ∀ (i : Nat) (arr : Array α), (heapBuild less hi first i arr).toList.Perm arr.toList
  | 0, arr => siftDownGo_perm less hi first (hi+1) 0 arr
  | i+1, arr =>
      (heapBuild_perm less hi first i _).trans (siftDownGo_perm less hi first (hi+1) (i+1) arr)

theorem heapPop_perm {α : Type} (less : α → α → Bool) (first : Nat) :
    ∀ (i : Nat) (arr : Array α), (heapPop less first i arr).toList.Perm arr.toList
  | 0, _ => List.Perm.refl _
  | i+1, arr =>
      ((heapPop_perm less first i _).trans
        (siftDownGo_perm less i first (i+1) 0 _)).trans
        (swapA_perm arr first (first + i))

theorem heapSortGo_perm {α : Type} (less : α → α → Bool) (arr : Array α)
    (lo hi : Nat) : (heapSortGo less arr lo hi).toList.Perm arr.toList := by
  unfold heapSortGo
  exact (heapPop_perm less lo (hi-lo) _).trans (heapBuild_perm less (hi-lo) lo _ arr)

theorem medianOfThreeGo_perm {α : Type} (less : α → α → Bool) (m1 m0 m2 : Nat)
    (arr : Array α) : (medianOfThreeGo less m1 m0 m2 arr).toList.Perm arr.toList := by
  unfold medianOfThreeGo
  dsimp only
  repeat'
    first
    | refine (swapA_perm _ _ _).trans ?_
    | split
    | dsimp only
  all_goals exact List.Perm.refl _

theorem partitionLoop_perm {α : Type} (less : α → α → Bool) (hi pivot : Nat) :
    ∀ (fuel b c : Nat) (arr : Array α),
      (partitionLoop less hi pivot fuel b c arr).1.toList.Perm arr.toList
  | 0, _, _, arr => List.Perm.refl _
  | fuel+1, b, c, arr => by
      unfold partitionLoop
      dsimp only
      split
      · exact List.Perm.refl _
      · exact (partitionLoop_perm less hi pivot fuel _ _ _).trans (swapA_perm arr _ _)

theorem protectLoop_perm {α : Type} (less : α → α → Bool) (hi pivot : Nat) :
    ∀ (fuel aIdx b : Nat) (arr : Array α),
      (protectLoop less hi pivot fuel aIdx b arr).1.toList.Perm arr.toList
  | 0, _, _, arr => List.Perm.refl _
  | fuel+1, aIdx, b, arr => by
      unfold protectLoop
      dsimp only
      split
      · exact List.Perm.refl _
      · exact (protectLoop_perm less hi pivot fuel _ _ _).trans (swapA_perm arr _ _)

theorem pivotPrep_perm {α : Type} (less : α → α → Bool) (arr : Array α)
    (lo hi m : Nat) : (pivotPrep less arr lo hi m).toList.Perm arr.toList := by
  unfold pivotPrep
  dsimp only
  repeat'
    first
    | refine (medianOfThreeGo_perm _ _ _ _ _).trans ?_
    | split
    | dsimp only
  all_goals exact List.Perm.refl _

theorem dupsStep23_perm {α : Type} (less : α → α → Bool) (arr1 : Array α)
    (lo m b d1 : Nat) : (dupsStep23 less arr1 lo m b d1).1.toList.Perm arr1.toList := by
  unfold dupsStep23
  split_ifs <;>
    first
    | exact List.Perm.refl _
    | exact swapA_perm _ _ _

theorem dupsStep_perm {α : Type} (less : α → α → Bool) (arr : Array α)
    (lo hi m b c : Nat) : (dupsStep less arr lo hi m b c).1.toList.Perm arr.toList := by
  unfold dupsStep mkDups
  split
  · exact (dupsStep23_perm _ _ _ _ _ _).trans (swapA_perm _ _ _)
  · exact dupsStep23_perm _ _ _ _ _ _

theorem pivotStep_perm {α : Type} (less : α → α → Bool) (lo hi m : Nat)
    (part : Array α × Nat × Nat) :
    (pivotStep less lo hi m part).1.toList.Perm part.1.toList := by
  unfold pivotStep
  split
  · exact dupsStep_perm _ _ _ _ _ _ _
  · exact List.Perm.refl _

theorem pivotProtect_perm {α : Type} (less : α → α → Bool) (lo hi aIdx : Nat)
    (step : Array α × Nat × Nat × Bool) :
    (pivotProtect less lo hi aIdx step).1.toList.Perm step.1.toList := by
  unfold pivotProtect
  dsimp only
  split
  · exact protectLoop_perm _ _ _ _ _ _ _
  · exact List.Perm.refl _

theorem doPivotGo_perm {α : Type} (less : α → α → Bool) (arr : Array α)
    (lo hi : Nat) : (doPivotGo less arr lo hi).1.toList.Perm arr.toList := by
  unfold doPivotGo
  dsimp only
  exact (swapA_perm _ _ _).trans ((pivotProtect_perm _ _ _ _ _).trans
    ((pivotStep_perm _ _ _ _ _).trans ((partitionLoop_perm _ _ _ _ _ _ _).trans
      (pivotPrep_perm _ _ _ _ _))))

theorem shellPass_perm {α : Type} (less : α → α → Bool) (hi : Nat) :
    ∀ (fuel i : Nat) (arr : Array α), (shellPass less hi fuel i arr).toList.Perm arr.toList
  | 0, _, arr => List.Perm.refl _
  | fuel+1, i, arr => by
      unfold shellPass
      split
      · refine (shellPass_perm less hi fuel (i+1) _).trans ?_
        split
        · exact swapA_perm arr _ _
        · exact List.Perm.refl _
      · exact List.Perm.refl _

theorem quickSortGo_perm {α : Type} (less : α → α → Bool) :
    ∀ (fuel : Nat) (arr : Array α) (lo hi maxD : Nat),
      (quickSortGo less fuel arr lo hi maxD).toList.Perm arr.toList
  | 0, arr, _, _, _ => List.Perm.refl _
  | fuel+1, arr, lo, hi, maxD => by
      unfold quickSortGo
      try dsimp only
      split
      · split
        · exact heapSortGo_perm less arr lo hi
        · split
          · exact ((quickSortGo_perm less fuel _ _ _ _).trans
              (quickSortGo_perm less fuel _ _ _ _)).trans
              (doPivotGo_perm less arr lo hi)
          · exact ((quickSortGo_perm less fuel _ _ _ _).trans
              (quickSortGo_perm less fuel _ _ _ _)).trans
              (doPivotGo_perm less arr lo hi)
      · split
        · exact (insertionSortGo_perm less _ lo hi).trans
            (shellPass_perm less hi (hi+1) (lo+6) arr)
        · exact List.Perm.refl _

theorem sortGo_perm {α : Type} (less : α → α → Bool) (arr : Array α) :
    (sortGo less arr).toList.Perm arr.toList :=
  quickSortGo_perm less (arr.size + 1) arr 0 arr.size (maxDepthGo arr.size)

/-! Helper lemmas about the association-list embedding of Go maps. -/

theorem lookupK_upsert {β : Type} (m : List (String × β)) (k : String) (v : β) :
    lookupK (upsert m k v) k = some v := by
  induction m with
  | nil => simp [upsert, lookupK]
  | cons p rest ih =>
    obtain ⟨k', v'⟩ := p
    by_cases h : k' = k
    · simp [upsert, lookupK, h]
    · simp [upsert, lookupK, h, ih]

theorem upsert_of_freshKey {β : Type} (m : List (String × β)) (k : String) (v : β)
    (h : ∀ p ∈ m, p.1 ≠ k) : upsert m k v = m ++ [(k, v)] := by
  induction m with
  | nil => simp [upsert]
  | cons p rest ih =>
    obtain ⟨k', v'⟩ := p
    have hk : k' ≠ k := h (k', v') (by simp)
    simp [upsert, hk]
    exact ih (fun p hp => h p (by simp [hp]))

/-! Claims about the operation layer (src/operations). -/

/-- Claim C7: a Bug produced by the creation factory has a Create operation
as the first element of its operation log, and compiling it yields a
Snapshot whose title, author and created-at equal exactly the supplied
values, with a single initial comment carrying the supplied message and
author. -/
theorem createWithFiles_create_first_and_compile (author : Person)
    (title message : String) (files : List Hash) (now : Int) :
    (CreateWithFiles author title message files now).ops.head? =
        some (Operation.create author now title message files) ∧
      (CreateWithFiles author title message files now).compile =
        { title := title,
          comments := [{ message := message, author := author, files := [],
                         unixTime := now }],
          author := author, createdAt := now } :=
  ⟨rfl, rfl⟩

/-- Claim C9: the fold is deterministic — each Apply is a pure function of
the operation and the input Snapshot, so two folds of equal sequences (from
equal seeds) produce equal Snapshots. -/
theorem compileOps_deterministic (ops1 ops2 : List Operation) (op : Operation)
    (s1 s2 : Snapshot) (hops : ops1 = ops2) (hs : s1 = s2) :
    compileOps ops1 = compileOps ops2 ∧ op.apply s1 = op.apply s2 :=
  ⟨by rw [hops], by rw [hs]⟩

/-- Witness for C9 at a concrete operation sequence and snapshot. -/
theorem compileOps_deterministic_witness :
    compileOps [Operation.create ⟨"ann", "a@x"⟩ 5 "T" "M" []] =
        compileOps [Operation.create ⟨"ann", "a@x"⟩ 5 "T" "M" []] ∧
      (Operation.addComment ⟨"bob", "b@x"⟩ 7 "hi" []).apply Snapshot.empty =
        (Operation.addComment ⟨"bob", "b@x"⟩ 7 "hi" []).apply Snapshot.empty :=
  compileOps_deterministic _ _ _ _ _ rfl rfl

/-- Claim C10: AddCommentOperation.Apply appends exactly one comment built
from the operation's message, author, files and timestamp at the end of the
comment sequence, and leaves title, author and created-at unchanged. -/
theorem addComment_apply_frame (author : Person) (unixTime : Int)
    (message : String) (files : List Hash) (snap : Snapshot) :
    ((Operation.addComment author unixTime message files).apply snap).comments =
        snap.comments ++ [{ message := message, author := author, files := files,
                            unixTime := unixTime }] ∧
      ((Operation.addComment author unixTime message files).apply snap).title =
        snap.title ∧
      ((Operation.addComment author unixTime message files).apply snap).author =
        snap.author ∧
      ((Operation.addComment author unixTime message files).apply snap).createdAt =
        snap.createdAt :=
  ⟨rfl, rfl, rfl, rfl⟩

/-! Claim C1 (prefix resolution). The source indexes `matching[0]` without a
zero-match check, so a prefix matching nothing panics instead of returning
the not-found error the spec requires (spec §7/§9 flag exactly this as a
latent defect). The sample below is the spec's own §8 example. -/

/-- Excerpt sample for the prefix-resolution scenario: issue "abc123". -/
def c1Ex1 : BugExcerpt :=
  { id := "abc123", title := "t1", author := ⟨"ann", "a@x"⟩,
    createUnixTime := 1, editUnixTime := 1 }

/-- Excerpt sample for the prefix-resolution scenario: issue "abc999". -/
def c1Ex2 : BugExcerpt :=
  { id := "abc999", title := "t2", author := ⟨"bob", "b@x"⟩,
    createUnixTime := 2, editUnixTime := 2 }

/-- Loaded bug sample behind identity "abc123". -/
def c1Bug : Bug :=
  { id := "abc123", committed := [.create ⟨"ann", "a@x"⟩ 1 "t1" "m1" []],
    staged := [] }

/-- Cache sample: the two issues of the spec's §8 prefix example, with
"abc123" already loaded. -/
def c1Cache : CacheState :=
  { excerpts := [("abc123", c1Ex1), ("abc999", c1Ex2)],
    bugs := [("abc123", c1Bug)] }

/-- Claim C1, behavior of the source at the spec's own example: an ambiguous
prefix errors with both matches listed and a unique prefix resolves, but a
prefix matching no identity panics (indexing an empty match list) instead of
returning a not-found error as the claim requires. -/
theorem resolveBugPrefix_zero_match_panics :
    resolveBugPrefix [] c1Cache "zzz" =
        .panicked "runtime error: index out of range" ∧
      resolveBugPrefix [] c1Cache "abc" =
        .ok (.error { msg := "Multiple matching bug found:\nabc123\nabc999" }) ∧
      resolveBugPrefix [] c1Cache "abc1" = .ok (.ok (c1Bug, c1Cache)) := by
  refine ⟨?_, ?_, ?_⟩ <;> rfl

/-! Claim C5 (index self-healing at cache open). -/

/-- The index obtained by compiling every durable log directly: one entry
per log, keyed by identity, in store enumeration order. -/
def directIndex (store : List Bug) : Excerpts :=
  store.map (fun b => (b.id, NewBugExcerpt b b.compile))

theorem foldl_upsert_fresh (f : Bug → BugExcerpt) :
    ∀ (store : List Bug) (acc : Excerpts),
      (∀ b ∈ store, ∀ p ∈ acc, p.1 ≠ b.id) → (store.map Bug.id).Nodup →
      store.foldl (fun m b => upsert m b.id (f b)) acc =
        acc ++ store.map (fun b => (b.id, f b))
  | [], acc, _, _ => by simp
  | b :: rest, acc, hfresh, hnd => by
      have hacc : upsert acc b.id (f b) = acc ++ [(b.id, f b)] :=
        upsert_of_freshKey acc b.id (f b) (fun p hp => hfresh b (by simp) p hp)
      have hnd' : (rest.map Bug.id).Nodup := (List.nodup_cons.mp hnd).2
      have hbid : b.id ∉ rest.map Bug.id := (List.nodup_cons.mp hnd).1
      have hfresh' : ∀ b' ∈ rest, ∀ p ∈ acc ++ [(b.id, f b)], p.1 ≠ b'.id := by
        intro b' hb' p hp
        rcases List.mem_append.mp hp with hpa | hpb
        · exact hfresh b' (by simp [hb']) p hpa
        · have : p = (b.id, f b) := by simpa using hpb
          subst this
          intro hcontra
          apply hbid
          have hco : b.id = b'.id := hcontra
          rw [hco]
          exact List.mem_map_of_mem Bug.id hb'

      calc (b :: rest).foldl (fun m b => upsert m b.id (f b)) acc
          = rest.foldl (fun m b => upsert m b.id (f b)) (acc ++ [(b.id, f b)]) := by
            simp [List.foldl_cons, hacc]
        _ = (acc ++ [(b.id, f b)]) ++ rest.map (fun b => (b.id, f b)) :=
            foldl_upsert_fresh f rest _ hfresh' hnd'
        _ = acc ++ (b :: rest).map (fun b => (b.id, f b)) := by simp

theorem buildAllExcerpt_eq_directIndex (store : List Bug)
    (hids : (store.map Bug.id).Nodup) : buildAllExcerpt store = directIndex store := by
  unfold buildAllExcerpt directIndex
  simpa using foldl_upsert_fresh (fun b => NewBugExcerpt b b.compile) store []
    (by simp) hids

/-- Claim C5: when the persisted index fails to load, opening the cache
rebuilds the whole index by compiling every durable log (the result equals
the directly-compiled index) and persists it once; when the load succeeds,
the loaded index is used unchanged, nothing is rebuilt and nothing is
persisted. -/
theorem newRepoCache_rebuild_on_load_failure (store : List Bug) (e : GoErr)
    (hids : (store.map Bug.id).Nodup) :
    newRepoCache store none (.error e) none =
        { cache := { excerpts := directIndex store, bugs := [] }, err := none,
          persisted := [directIndex store], rebuilt := true } ∧
      (∀ (ex : Excerpts) (wf : Option GoErr),
        newRepoCache store none (.ok ex) wf =
          { cache := { excerpts := ex, bugs := [] }, err := none,
            persisted := [], rebuilt := false }) := by
  constructor
  · unfold newRepoCache
    rw [buildAllExcerpt_eq_directIndex store hids]
  · intro ex wf
    rfl

/-- Durable log sample for the C5 witness. -/
def c5Bug : Bug :=
  { id := "w1", committed := [.create ⟨"ann", "a@x"⟩ 3 "T" "M" []], staged := [] }

/-- Witness for C5 at a one-log store with a corrupt index file. -/
theorem newRepoCache_rebuild_witness :
    newRepoCache [c5Bug] none (.error { msg := "corrupt" }) none =
        { cache := { excerpts := directIndex [c5Bug], bugs := [] }, err := none,
          persisted := [directIndex [c5Bug]], rebuilt := true } ∧
      newRepoCache [c5Bug] none (.ok []) none =
        { cache := { excerpts := [], bugs := [] }, err := none,
          persisted := [], rebuilt := false } :=
  ⟨(newRepoCache_rebuild_on_load_failure [c5Bug] { msg := "corrupt" } (by decide)).1,
   (newRepoCache_rebuild_on_load_failure [c5Bug] { msg := "corrupt" } (by decide)).2 [] none⟩

/-! Claim C6 (NewBug at the cache boundary). -/

/-- The bug value a successful NewBugWithFiles commits: identity from the
commit-assigned hash, the single Create operation now durable, nothing
staged. -/
def committedCreate (author : Person) (hash title message : String)
    (files : List Hash) (now : Int) : Bug :=
  { id := hash, committed := [.create author now title message files], staged := [] }

/-- Claim C6: on success NewBugWithFiles returns the committed bug (no staged
operations left), memoizes it in the loaded-bug map, regenerates its Excerpt
from its current Snapshot and rewrites the full index; an author-resolution
failure or a commit failure is returned as-is with the loaded-bug map and
the Excerpt index unchanged. -/
theorem newBugWithFiles_paths (c : CacheState) (author : Person) (hash : String)
    (title message : String) (files : List Hash) (now : Int) (e : GoErr)
    (wf : Option GoErr) :
    (newBugWithFiles c ⟨.ok author, hash, none, none⟩ title message files now =
      .ok
        { ret := .ok (committedCreate author hash title message files now)
          cache :=
            { excerpts := upsert c.excerpts hash
                (NewBugExcerpt (committedCreate author hash title message files now)
                  (committedCreate author hash title message files now).compile)
              bugs := upsert c.bugs hash
                (committedCreate author hash title message files now) }
          persisted :=
            [upsert c.excerpts hash
              (NewBugExcerpt (committedCreate author hash title message files now)
                (committedCreate author hash title message files now).compile)] }) ∧
    (newBugWithFiles c ⟨.error e, hash, none, wf⟩ title message files now =
      .ok { ret := .error e, cache := c, persisted := [] }) ∧
    (newBugWithFiles c ⟨.ok author, hash, some e, wf⟩ title message files now =
      .ok { ret := .error e, cache := c, persisted := [] }) := by
  refine ⟨?_, rfl, rfl⟩
  unfold newBugWithFiles
  simp only [CreateWithFiles, NewCreateOp, Bug.new, Bug.append, Bug.commit,
    bugUpdated, lookupK_upsert, committedCreate]
  rfl

/-! Claims C2 and C4 (MergeAll's output stream and final persistence). -/

theorem mergeAllLoop_yields (results : List MergeResult) :
    ∀ ex : Excerpts, (mergeAllLoop ex results).2 =
      (results.filter (fun r => r.err.isNone)).map MergeEvent.yield := by
  induction results with
  | nil => intro ex; rfl
  | cons r rest ih =>
      intro ex
      cases hre : r.err with
      | none => simp [mergeAllLoop, hre, ih]
      | some e => simp [mergeAllLoop, hre, ih]

/-- Result carrying a per-issue error in the underlying merge stream: a
diverged log surfaced with a non-nil Err. -/
def c2Err : MergeResult :=
  { id := "b1", status := .invalid, err := some { msg := "diverged log" },
    bug := { id := "b1", committed := [], staged := [] } }

/-- Claim C2 counterexample: a merge result that carries a per-issue error is
not yielded on MergeAll's output stream — the loop skips it, so the only
event of the batch is the final persist. -/
theorem mergeAll_drops_error_result :
    mergeAll [] [c2Err] none = [MergeEvent.persist []] ∧
      MergeEvent.yield c2Err ∉ mergeAll [] [c2Err] none := by
  refine ⟨rfl, ?_⟩
  intro h
  simp [mergeAll, mergeAllLoop, c2Err] at h

/-- Claim C2 as amended: exactly the merge results whose per-issue error is
nil — including diverged/Invalid-status results, whose error field is nil —
are yielded, in stream order, before the single final persist; results that
carry a non-nil per-issue error are silently dropped from the output stream,
and neither kind aborts the batch. -/
theorem mergeAll_yields_exactly_nonerror_results (ex : Excerpts)
    (results : List MergeResult) :
    mergeAll ex results none =
      ((results.filter (fun r => r.err.isNone)).map MergeEvent.yield)
        ++ [MergeEvent.persist (mergeAllLoop ex results).1] := by
  unfold mergeAll
  dsimp only
  rw [mergeAllLoop_yields]

/-- Recognizer of full-index persist events on MergeAll's trace. -/
def isPersistEv : MergeEvent → Bool
  | .persist _ => true
  | _ => false

/-- Claim C4: after the stream is drained the full index is persisted exactly
once, as the last event (so after every yield, never on the per-result
path); when that single write fails, the batch ends in a panic — fatal, not
swallowed — and nothing is persisted. -/
theorem mergeAll_persists_once_and_fatal_on_failure (ex : Excerpts)
    (results : List MergeResult) (e : GoErr) :
    ((mergeAll ex results none).countP isPersistEv = 1 ∧
      (mergeAll ex results none).getLast? =
        some (MergeEvent.persist (mergeAllLoop ex results).1)) ∧
    ((mergeAll ex results (some e)).countP isPersistEv = 0 ∧
      (mergeAll ex results (some e)).getLast? =
        some (MergeEvent.panicEv e.msg)) := by
  have hyields : ∀ w, mergeAll ex results w =
      ((results.filter (fun r => r.err.isNone)).map MergeEvent.yield)
        ++ [match w with
            | some e' => MergeEvent.panicEv e'.msg
            | none => MergeEvent.persist (mergeAllLoop ex results).1] := by
    intro w
    unfold mergeAll
    dsimp only
    rw [mergeAllLoop_yields]
  refine ⟨⟨?_, ?_⟩, ?_, ?_⟩ <;>
    simp [hyields, List.countP_append, List.countP_map, List.getLast?_concat,
      Function.comp, isPersistEv]

/-! Claims C8 and C3 (the query engine). -/

/-- Claim C8: a query whose ordering key is one of the three documented keys
completes with a result; a query with any other ordering key falls to the
default branch of the sorter switch and panics instead of returning a
recoverable error. -/
theorem queryBugs_ok_iff_known_order (c : CacheState) (q : Query) :
    ((∃ l, queryBugs c (some q) = .ok l) ↔
        (q.OrderBy = OrderById ∨ q.OrderBy = OrderByCreation ∨
          q.OrderBy = OrderByEdit)) ∧
      ((queryBugs c (some q) = .panicked "missing sort type") ↔
        ¬(q.OrderBy = OrderById ∨ q.OrderBy = OrderByCreation ∨
          q.OrderBy = OrderByEdit)) := by
  unfold queryBugs lessFor
  dsimp only
  by_cases h1 : q.OrderBy = OrderById <;>
    by_cases h2 : q.OrderBy = OrderByCreation <;>
      by_cases h3 : q.OrderBy = OrderByEdit <;>
        · simp only [OrderById, OrderByCreation, OrderByEdit] at h1 h2 h3 ⊢
          simp [h1, h2, h3]

/-- Claim C3 as amended: for each documented ordering key and either
direction, QueryBugs returns exactly a permutation of the identities of the
excerpts satisfying the query's Match predicate, arranged by Go's sort.Sort
under the key's comparator (flipped when descending). -/
theorem queryBugs_perm_of_matching (c : CacheState) (f : BugExcerpt → Bool)
    (d : Nat) :
    (∃ l, queryBugs c (some ⟨f, OrderById, d⟩) = .ok l ∧
        l.Perm (((c.excerpts.map Prod.snd).filter f).map (fun e => e.id))) ∧
      (∃ l, queryBugs c (some ⟨f, OrderByCreation, d⟩) = .ok l ∧
        l.Perm (((c.excerpts.map Prod.snd).filter f).map (fun e => e.id))) ∧
      (∃ l, queryBugs c (some ⟨f, OrderByEdit, d⟩) = .ok l ∧
        l.Perm (((c.excerpts.map Prod.snd).filter f).map (fun e => e.id))) := by
  refine ⟨⟨_, rfl, ?_⟩, ⟨_, rfl, ?_⟩, ⟨_, rfl, ?_⟩⟩ <;>
  · refine List.Perm.map _ ?_
    refine (sortGo_perm _ _).trans ?_
    rw [Array.toList_toArray]

/-- Excerpt sample for the stability counterexample (creation time 5). -/
def c3ExA : BugExcerpt :=
  { id := "a", title := "", author := ⟨"", ""⟩, createUnixTime := 5, editUnixTime := 0 }

/-- Excerpt sample (creation time 3, emitted before "g"). -/
def c3ExB : BugExcerpt :=
  { id := "b", title := "", author := ⟨"", ""⟩, createUnixTime := 3, editUnixTime := 0 }

/-- Excerpt sample (creation time 0). -/
def c3ExC : BugExcerpt :=
  { id := "c", title := "", author := ⟨"", ""⟩, createUnixTime := 0, editUnixTime := 0 }

/-- Excerpt sample (creation time 1). -/
def c3ExD : BugExcerpt :=
  { id := "d", title := "", author := ⟨"", ""⟩, createUnixTime := 1, editUnixTime := 0 }

/-- Excerpt sample (creation time 2). -/
def c3ExE : BugExcerpt :=
  { id := "e", title := "", author := ⟨"", ""⟩, createUnixTime := 2, editUnixTime := 0 }

/-- Excerpt sample (creation time 4). -/
def c3ExF : BugExcerpt :=
  { id := "f", title := "", author := ⟨"", ""⟩, createUnixTime := 4, editUnixTime := 0 }

/-- Excerpt sample (creation time 3, emitted after "b"). -/
def c3ExG : BugExcerpt :=
  { id := "g", title := "", author := ⟨"", ""⟩, createUnixTime := 3, editUnixTime := 0 }

/-- Cache sample for the stability counterexample: seven excerpts whose map
iteration (filter-emission) order is a, b, c, d, e, f, g. -/
def c3Cache : CacheState :=
  { excerpts := [("a", c3ExA), ("b", c3ExB), ("c", c3ExC), ("d", c3ExD),
                 ("e", c3ExE), ("f", c3ExF), ("g", c3ExG)],
    bugs := [] }

set_option maxHeartbeats 4000000 in
/-- Claim C3 counterexample: ordering by creation time ascending on the
sample, the excerpts "b" and "g" have equal creation time 3 and are emitted
by the filter with "b" first, yet the result places "g" before "b" — the
shell pass of Go's sort.Sort reorders the tie, so the sort is not stable. -/
theorem queryBugs_sort_not_stable :
    queryBugs c3Cache
        (some ⟨fun _ => true, OrderByCreation, OrderAscending⟩) =
      .ok ["c", "d", "e", "g", "b", "f", "a"] ∧
    ((c3Cache.excerpts.map Prod.snd).filter (fun _ => true)).map
        (fun e => (e.id, e.createUnixTime)) =
      [("a", 5), ("b", 3), ("c", 0), ("d", 1), ("e", 2), ("f", 4), ("g", 3)] ∧
    (["c", "d", "e", "g", "b", "f", "a"] : List String) ≠
      ["c", "d", "e", "b", "g", "f", "a"] := by
  refine ⟨by decide, rfl, by decide⟩

end GitBug
